import Mathlib

/-!
Formal model of inject/invokers.py.

The Invoker proxy wraps an unbound method reference, resolves its receiver
through an injection point at call time, and forwards hashing and equality
to the wrapped method.

Python values that may be handed to the Invoker factory are modelled by
Candidate, which records the duck-typed attributes the factory probes
(im_class, im_self, im_func) as optional fields: a missing field models a
failing hasattr probe.  The external injection mechanism
(inject.points.InjectionPoint) is modelled abstractly, with its hidden
scope state threaded explicitly so that each resolution call is visible.

Type parameters used throughout:
  kappa (declaring types), iota (instances), phi (function bodies as used
  for identity), alpha (argument values), rho (call results),
  epsilon (raised errors), sigma (hidden scope state of the injection
  mechanism).
-/

/-- Modelled from the spec: the external injection mechanism handle built by
inject.points.InjectionPoint, whose source file is not part of this slice.
Per the spec it is scoped to a declaring type and offers one resolution
operation, get_instance, which produces a live instance or fails; the
resolution may depend on the collaborator state, which is threaded
explicitly so that distinct calls can return distinct instances. -/
structure InjectionPoint (κ ι ε σ : Type) where
  cls : κ
  get_instance : σ → Except ε ι × σ

/-- A Python value offered to the Invoker factory, seen through the
duck-typed probes that the factory performs.  A field holding none models a
value on which the corresponding hasattr probe fails; im_self holding
some none models an attribute that is present and is None, while
some (some r) models a receiver r that is already bound.  The body field is
the underlying callable behaviour: called with a receiver, positional
arguments and keyword arguments, it returns a result or raises. -/
structure Candidate (κ ι φ α ρ ε : Type) where
  im_class : Option κ
  im_self : Option (Option ι)
  im_func : Option φ
  body : ι → List α → List (String × α) → Except ε ρ

/-- The Invoker object, mirroring the slots declared in the source:
method (the wrapped candidate), injection (the injection point built at
initialization) and a memoized hash that starts out absent. -/
structure Invoker (κ ι φ α ρ ε σ : Type) where
  method : Candidate κ ι φ α ρ ε
  injection : InjectionPoint κ ι ε σ
  _hash : Option Int

/-- A Python value as far as the factory and the comparison protocol are
concerned: either an ordinary candidate or an Invoker instance. -/
inductive PyCand (κ ι φ α ρ ε σ : Type) where
  | cand (c : Candidate κ ι φ α ρ ε)
  | inv (v : Invoker κ ι φ α ρ ε σ)

variable {κ ι φ α ρ ε σ V : Type}

/-- The final conjunct of the factory test: method.im_self is None. -/
def im_selfIsNone (c : Candidate κ ι φ α ρ ε) : Bool :=
  match c.im_self with
  | some none => true
  | _ => false

/-- The test performed by the factory, in source order: hasattr im_class,
hasattr im_self, hasattr im_func, and im_self is None. -/
def newCheck (c : Candidate κ ι φ α ρ ε) : Bool :=
  c.im_class.isSome && c.im_self.isSome && c.im_func.isSome && im_selfIsNone c

/-- Outcome of the allocation step: either a fresh uninitialized Invoker
is allocated for the candidate, or the argument is returned untouched. -/
inductive NewResult (κ ι φ α ρ ε σ : Type) where
  | fresh (c : Candidate κ ι φ α ρ ε)
  | untouched (x : PyCand κ ι φ α ρ ε σ)

/-- The allocation step of the factory.  An Invoker instance exposes none
of im_class, im_self, im_func (its slots are method, injection and the
hash cache), so it always fails the probes and is returned untouched. -/
def pyNew : PyCand κ ι φ α ρ ε σ → NewResult κ ι φ α ρ ε σ
  | .cand c => if newCheck c then .fresh c else .untouched (.cand c)
  | .inv v => .untouched (.inv v)

/-- Initialization of a freshly allocated Invoker: store the method, build
the injection point from the declaring type of the method, and set the
hash cache to absent.  Reading im_class on a value that lacks it raises an
attribute error, and a failure of the injection-point constructor
propagates. -/
def initFresh (ipc : κ → Except ε (InjectionPoint κ ι ε σ)) (attrErr : ε)
    (m : Candidate κ ι φ α ρ ε) : Except ε (Invoker κ ι φ α ρ ε σ) :=
  match m.im_class with
  | none => Except.error attrErr
  | some cls => (ipc cls).map (fun ip => ⟨m, ip, none⟩)

/-- The full factory call, following the construction protocol of the
language: first the allocation step runs; when it allocated a fresh
Invoker, initialization runs on it; when it returned the argument
untouched, initialization still runs whenever that argument is itself an
Invoker instance, because the allocation step returned an instance of the
class under construction.  That re-initialization rebinds the method slot
of the existing Invoker to the Invoker itself and then reads im_class on
it, which an Invoker does not expose, so an attribute error is raised. -/
def invokerFactory (ipc : κ → Except ε (InjectionPoint κ ι ε σ)) (attrErr : ε)
    (x : PyCand κ ι φ α ρ ε σ) : Except ε (PyCand κ ι φ α ρ ε σ) :=
  match pyNew x with
  | .fresh c => (initFresh ipc attrErr c).map PyCand.inv
  | .untouched (.cand c) => Except.ok (.cand c)
  | .untouched (.inv _) => Except.error attrErr

/-- Invocation: resolve an instance through the injection point, then call
the wrapped method with that instance as the receiver, forwarding the
positional and keyword arguments unchanged.  The collaborator state is
threaded, so successive calls resolve from successive states. -/
def Invoker.call (v : Invoker κ ι φ α ρ ε σ) (s : σ)
    (args : List α) (kwargs : List (String × α)) : Except ε ρ × σ :=
  match v.injection.get_instance s with
  | (Except.error e, s2) => (Except.error e, s2)
  | (Except.ok inst, s2) => (v.method.body inst args kwargs, s2)

/-- Invocation instrumented with the list of calls made to the wrapped
method, each recorded with its receiver and forwarded arguments.  Used to
state that a resolution failure reaches the caller with the method never
entered. -/
def Invoker.callTrace (v : Invoker κ ι φ α ρ ε σ) (s : σ)
    (args : List α) (kwargs : List (String × α)) :
    (Except ε ρ × σ) × List (ι × List α × List (String × α)) :=
  match v.injection.get_instance s with
  | (Except.error e, s2) => ((Except.error e, s2), [])
  | (Except.ok inst, s2) =>
      ((v.method.body inst args kwargs, s2), [(inst, args, kwargs)])

/-- Hashing, parameterized by the hash function of the language on
candidates: on the first call the hash of the wrapped method is computed
and stored in the cache; afterwards the cached value is returned and the
method hash is never consulted again. -/
def Invoker.hash (candHash : Candidate κ ι φ α ρ ε → Int)
    (v : Invoker κ ι φ α ρ ε σ) : Int × Invoker κ ι φ α ρ ε σ :=
  match v._hash with
  | some h => (h, v)
  | none =>
      let h := candHash v.method
      (h, ⟨v.method, v.injection, some h⟩)

/-- The hash value of a modelled Python value: candidates hash through the
given candidate hash, an Invoker hashes through its memoizing hash (the
returned integer is the same whether or not the cache was filled). -/
def pyHashPure (candHash : Candidate κ ι φ α ρ ε → Int)
    (x : PyCand κ ι φ α ρ ε σ) : Int :=
  match x with
  | .cand c => candHash c
  | .inv v => (Invoker.hash candHash v).1

/-- Equality between modelled Python values, parameterized by the equality
the language gives to plain candidates.  An Invoker on the left delegates
to its wrapped method.  A candidate compared to an Invoker does not
recognise it, so the comparison falls back to the reflected Invoker
equality, which again delegates to the wrapped method.  For two Invokers
the left delegation produces a candidate compared to an Invoker, and the
reflected call of the right Invoker resolves it. -/
def pyEq (candEq : Candidate κ ι φ α ρ ε → Candidate κ ι φ α ρ ε → Bool) :
    PyCand κ ι φ α ρ ε σ → PyCand κ ι φ α ρ ε σ → Bool
  | .cand c, .cand c2 => candEq c c2
  | .cand c, .inv v => candEq v.method c
  | .inv v, .cand c => candEq v.method c
  | .inv v, .inv w => candEq w.method v.method

/-- Inequality between modelled Python values, with the same delegation
structure as equality: an Invoker forwards the request to its wrapped
method. -/
def pyNe (candNe : Candidate κ ι φ α ρ ε → Candidate κ ι φ α ρ ε → Bool) :
    PyCand κ ι φ α ρ ε σ → PyCand κ ι φ α ρ ε σ → Bool
  | .cand c, .cand c2 => candNe c c2
  | .cand c, .inv v => candNe v.method c
  | .inv v, .cand c => candNe v.method c
  | .inv v, .inv w => candNe w.method v.method

/-- Lookup in a hash-based mapping, modelled as a probe over the entries:
an entry is found when its key has the same hash as the requested key and
the stored key compares equal to the requested key. -/
def dictLookup (candHash : Candidate κ ι φ α ρ ε → Int)
    (candEq : Candidate κ ι φ α ρ ε → Candidate κ ι φ α ρ ε → Bool) :
    List (PyCand κ ι φ α ρ ε σ × V) → PyCand κ ι φ α ρ ε σ → Option V
  | [], _ => none
  | (k0, v0) :: rest, k =>
      if (pyHashPure candHash k0 == pyHashPure candHash k)
          && pyEq candEq k0 k then some v0
      else dictLookup candHash candEq rest k

/-! Concrete instantiations used by the witnesses and counterexamples.
All type parameters are instantiated with Nat. -/

/-- A concrete injection point: resolution returns the current state as the
instance and increments the state, so successive resolutions differ. -/
def ipEx : InjectionPoint Nat Nat Nat Nat :=
  ⟨1, fun s => (Except.ok s, s + 1)⟩

/-- A concrete injection-point constructor that always succeeds. -/
def ipcEx : Nat → Except Nat (InjectionPoint Nat Nat Nat Nat) :=
  fun c => Except.ok ⟨c, fun s => (Except.ok s, s + 1)⟩

/-- A concrete injection point whose resolution always fails with error 42. -/
def ipFailEx : InjectionPoint Nat Nat Nat Nat :=
  ⟨1, fun s => (Except.error 42, s)⟩

/-- A concrete injection-point constructor that always fails with error 13. -/
def ipcFailEx : Nat → Except Nat (InjectionPoint Nat Nat Nat Nat) :=
  fun _ => Except.error 13

/-- A concrete unbound method candidate: declaring type 1, function body 2,
receiver slot present and absent; the behaviour returns the receiver plus
the number of positional arguments. -/
def mEx : Candidate Nat Nat Nat Nat Nat Nat :=
  ⟨some 1, some none, some 2, fun i a _ => Except.ok (i + a.length)⟩

/-- A second unbound method candidate with the same declaring type as mEx
but a different function body. -/
def mEx2 : Candidate Nat Nat Nat Nat Nat Nat :=
  ⟨some 1, some none, some 5, fun i _ _ => Except.ok i⟩

/-- A concrete free-function candidate: none of the probed attributes is
present. -/
def fEx : Candidate Nat Nat Nat Nat Nat Nat :=
  ⟨none, none, none, fun _ a _ => Except.ok a.length⟩

/-- A concrete bound-method candidate: all attributes present but the
receiver slot holds an instance. -/
def bEx : Candidate Nat Nat Nat Nat Nat Nat :=
  ⟨some 1, some (some 9), some 2, fun i _ _ => Except.ok i⟩

/-- Candidate equality used by the witnesses: identity of the function
body, as the language defines for method objects. -/
def candEqEx : Candidate Nat Nat Nat Nat Nat Nat →
    Candidate Nat Nat Nat Nat Nat Nat → Bool :=
  fun c c2 => c.im_func == c2.im_func

/-- Candidate inequality used by the witnesses. -/
def candNeEx : Candidate Nat Nat Nat Nat Nat Nat →
    Candidate Nat Nat Nat Nat Nat Nat → Bool :=
  fun c c2 => c.im_func != c2.im_func

/-- Candidate hash used by the witnesses. -/
def candHashEx : Candidate Nat Nat Nat Nat Nat Nat → Int :=
  fun c => (c.im_func.getD 0 : Nat)

/-- The Invoker the factory builds for mEx under ipcEx. -/
def vEx : Invoker Nat Nat Nat Nat Nat Nat Nat :=
  ⟨mEx, ⟨1, fun s => (Except.ok s, s + 1)⟩, none⟩

/-- An Invoker wrapping mEx whose injection point always fails to resolve. -/
def vFailEx : Invoker Nat Nat Nat Nat Nat Nat Nat :=
  ⟨mEx, ipFailEx, none⟩

/-! Claim theorems. -/

/-- C1: each call of an Invoker asks the injection point for an instance
resolved from the current collaborator state and returns exactly the
wrapped method applied to that instance with the positional and keyword
arguments forwarded unchanged; a second call resolves again from the
updated state, so no instance is cached across calls. -/
theorem invoker_call_resolves_fresh_and_forwards
    (v : Invoker κ ι φ α ρ ε σ) (s s1 s2 : σ) (i1 i2 : ι)
    (a1 a2 : List α) (k1 k2 : List (String × α))
    (h1 : v.injection.get_instance s = (Except.ok i1, s1))
    (h2 : v.injection.get_instance s1 = (Except.ok i2, s2)) :
    Invoker.call v s a1 k1 = (v.method.body i1 a1 k1, s1) ∧
    Invoker.call v s1 a2 k2 = (v.method.body i2 a2 k2, s2) := by
  constructor
  · simp [Invoker.call, h1]
  · simp [Invoker.call, h2]

/-- Witness for C1 at the concrete Invoker vEx: the first call resolves
instance 0 and moves the scope state to 1, the second call resolves
instance 1, and each returns the wrapped method applied to the resolved
instance and the forwarded arguments. -/
theorem invoker_call_resolves_fresh_and_forwards_witness :
    Invoker.call vEx 0 [5] [] = (Except.ok 1, 1) ∧
    Invoker.call vEx 1 [5] [] = (Except.ok 2, 2) := by
  have h := invoker_call_resolves_fresh_and_forwards vEx 0 1 2 0 1
    [5] [5] [] [] rfl rfl
  exact h

/-- C7: when the injection point fails to resolve an instance, the call
returns that same failure unchanged and the wrapped method is never
entered: the instrumented trace of method calls is empty. -/
theorem invoker_call_propagates_resolution_failure
    (v : Invoker κ ι φ α ρ ε σ) (s s1 : σ) (e : ε)
    (a : List α) (k : List (String × α))
    (h : v.injection.get_instance s = (Except.error e, s1)) :
    Invoker.callTrace v s a k = ((Except.error e, s1), []) ∧
    Invoker.call v s a k = (Except.error e, s1) := by
  constructor
  · simp [Invoker.callTrace, h]
  · simp [Invoker.call, h]

/-- Witness for C7 at the concrete Invoker vFailEx, whose injection point
fails with error 42: the call returns error 42 and the trace of calls to
the wrapped method is empty. -/
theorem invoker_call_propagates_resolution_failure_witness :
    Invoker.callTrace vFailEx 0 [5] [] = ((Except.error 42, 0), []) ∧
    Invoker.call vFailEx 0 [5] [] = (Except.error 42, 0) := by
  have h := invoker_call_propagates_resolution_failure vFailEx 0 0 42
    [5] [] rfl
  exact h

/-- C8: initialization stores the given method, sets the hash cache to
absent, and builds the injection point from the declaring type of the
method and from nothing else: any two methods with the same declaring type
receive the same injection point, and a failure of the injection-point
constructor for that declaring type propagates unchanged. -/
theorem invoker_init_scoped_to_declaring_type
    (ipc : κ → Except ε (InjectionPoint κ ι ε σ)) (attrErr : ε)
    (m m2 : Candidate κ ι φ α ρ ε) (cls : κ)
    (h1 : m.im_class = some cls) (h2 : m2.im_class = some cls) :
    (∀ e, ipc cls = Except.error e →
      initFresh ipc attrErr m = (Except.error e : Except ε (Invoker κ ι φ α ρ ε σ))) ∧
    (∀ ip : InjectionPoint κ ι ε σ, ipc cls = Except.ok ip →
      initFresh ipc attrErr m = Except.ok ⟨m, ip, none⟩ ∧
      initFresh ipc attrErr m2 = Except.ok ⟨m2, ip, none⟩) := by
  constructor
  · intro e he
    simp [initFresh, h1, he, Except.map]
  · intro ip hip
    constructor
    · simp [initFresh, h1, hip, Except.map]
    · simp [initFresh, h2, hip, Except.map]

/-- Witness for C8 at the concrete candidates mEx and mEx2, which share
declaring type 1: under the failing constructor the error 13 propagates,
and under the successful constructor both receive the injection point
built for type 1. -/
theorem invoker_init_scoped_to_declaring_type_witness :
    initFresh ipcFailEx 7 mEx =
      (Except.error 13 : Except Nat (Invoker Nat Nat Nat Nat Nat Nat Nat)) ∧
    initFresh ipcEx 7 mEx = Except.ok ⟨mEx, ipEx, none⟩ ∧
    initFresh ipcEx 7 mEx2 = Except.ok ⟨mEx2, ipEx, none⟩ := by
  have hfail := (invoker_init_scoped_to_declaring_type ipcFailEx 7
    mEx mEx2 1 rfl rfl).1 13 rfl
  have hok := (invoker_init_scoped_to_declaring_type ipcEx 7
    mEx mEx2 1 rfl rfl).2 ipEx rfl
  exact ⟨hfail, hok.1, hok.2⟩

/-- C4: wrapping an unbound method reference yields a new proxy distinct
from the method as a value, with the same hash, whose equality and
inequality against every value delegate to the wrapped method; in
particular, as method equality is reflexive at the method, the proxy and
the method compare equal in both directions. -/
theorem invoker_transparent_proxy
    (ipc : κ → Except ε (InjectionPoint κ ι ε σ)) (attrErr : ε)
    (candHash : Candidate κ ι φ α ρ ε → Int)
    (candEq candNe : Candidate κ ι φ α ρ ε → Candidate κ ι φ α ρ ε → Bool)
    (m : Candidate κ ι φ α ρ ε) (cls : κ) (ip : InjectionPoint κ ι ε σ)
    (hnew : newCheck m = true) (hcls : m.im_class = some cls)
    (hip : ipc cls = Except.ok ip) :
    invokerFactory ipc attrErr (.cand m) = Except.ok (.inv ⟨m, ip, none⟩) ∧
    (PyCand.inv ⟨m, ip, none⟩ : PyCand κ ι φ α ρ ε σ) ≠ .cand m ∧
    pyHashPure candHash (.inv (⟨m, ip, none⟩ : Invoker κ ι φ α ρ ε σ)) =
      pyHashPure candHash (PyCand.cand m : PyCand κ ι φ α ρ ε σ) ∧
    (∀ x : PyCand κ ι φ α ρ ε σ,
      pyEq candEq (.inv ⟨m, ip, none⟩) x = pyEq candEq (.cand m) x ∧
      pyNe candNe (.inv ⟨m, ip, none⟩) x = pyNe candNe (.cand m) x) ∧
    (candEq m m = true →
      pyEq candEq (.inv (⟨m, ip, none⟩ : Invoker κ ι φ α ρ ε σ)) (.cand m) = true ∧
      pyEq candEq (.cand m) (.inv (⟨m, ip, none⟩ : Invoker κ ι φ α ρ ε σ)) = true) := by
  refine ⟨?_, ?_, ?_, ?_, ?_⟩
  · simp [invokerFactory, pyNew, hnew, initFresh, hcls, hip, Except.map]
  · intro h
    cases h
  · simp [pyHashPure, Invoker.hash]
  · intro x
    cases x with
    | cand c => simp [pyEq, pyNe]
    | inv w => simp [pyEq, pyNe]
  · intro hrefl
    simp [pyEq, hrefl]

/-- Witness for C4 at the concrete method mEx: the factory builds the
proxy vEx, which differs from mEx as a value, hashes like mEx, and
compares equal to mEx in both directions. -/
theorem invoker_transparent_proxy_witness :
    invokerFactory ipcEx 7 (.cand mEx) = Except.ok (.inv vEx) ∧
    (PyCand.inv vEx : PyCand Nat Nat Nat Nat Nat Nat Nat) ≠ .cand mEx ∧
    pyHashPure candHashEx (.inv vEx) =
      pyHashPure candHashEx (PyCand.cand mEx : PyCand Nat Nat Nat Nat Nat Nat Nat) ∧
    pyEq candEqEx (.inv vEx) (.cand mEx) = true ∧
    pyEq candEqEx (.cand mEx) (.inv vEx) = true := by
  have h := invoker_transparent_proxy ipcEx 7 candHashEx candEqEx candNeEx
    mEx 1 ⟨1, fun s => (Except.ok s, s + 1)⟩ (by decide) rfl rfl
  exact ⟨h.1, h.2.1, h.2.2.1, (h.2.2.2.2 (by decide)).1, (h.2.2.2.2 (by decide)).2⟩

/-- C5: in a hash-based mapping, an entry stored under the proxy is found
when looked up with the wrapped method, and an entry stored under the
method is found when looked up with the proxy, because the two share a
hash and compare equal. -/
theorem invoker_dict_interchangeable
    (candHash : Candidate κ ι φ α ρ ε → Int)
    (candEq : Candidate κ ι φ α ρ ε → Candidate κ ι φ α ρ ε → Bool)
    (m : Candidate κ ι φ α ρ ε) (ip : InjectionPoint κ ι ε σ)
    (val1 val2 : V) (hrefl : candEq m m = true) :
    dictLookup candHash candEq
      [((PyCand.inv ⟨m, ip, none⟩ : PyCand κ ι φ α ρ ε σ), val1)]
      (.cand m) = some val1 ∧
    dictLookup candHash candEq
      [((PyCand.cand m : PyCand κ ι φ α ρ ε σ), val2)]
      (.inv ⟨m, ip, none⟩) = some val2 := by
  constructor
  · simp [dictLookup, pyHashPure, pyEq, Invoker.hash, hrefl]
  · simp [dictLookup, pyHashPure, pyEq, Invoker.hash, hrefl]

/-- Witness for C5 at the concrete method mEx and its proxy: both lookup
directions retrieve the stored value. -/
theorem invoker_dict_interchangeable_witness :
    dictLookup candHashEx candEqEx
      [((PyCand.inv vEx : PyCand Nat Nat Nat Nat Nat Nat Nat), 10)]
      (.cand mEx) = some 10 ∧
    dictLookup candHashEx candEqEx
      [((PyCand.cand mEx : PyCand Nat Nat Nat Nat Nat Nat Nat), 11)]
      (.inv vEx) = some 11 := by
  have h := invoker_dict_interchangeable candHashEx candEqEx mEx
    ⟨1, fun s => (Except.ok s, s + 1)⟩ 10 11 (by decide)
  exact h

/-- C6: the hash cache of a freshly initialized Invoker is absent; the
first hash call computes the hash of the wrapped method, returns it and
stores it in the cache; once the cache is filled, every later hash call
returns the cached value and leaves the Invoker unchanged, whatever value
the method hash would produce now — the method hash is never consulted
again. -/
theorem invoker_hash_memoized
    (ipc : κ → Except ε (InjectionPoint κ ι ε σ)) (attrErr : ε)
    (candHash candHash2 : Candidate κ ι φ α ρ ε → Int)
    (c : Candidate κ ι φ α ρ ε) (v w : Invoker κ ι φ α ρ ε σ) (h : Int) :
    (initFresh ipc attrErr c = Except.ok v → v._hash = none) ∧
    (w._hash = none →
      Invoker.hash candHash w =
        (candHash w.method, ⟨w.method, w.injection, some (candHash w.method)⟩)) ∧
    (w._hash = some h →
      Invoker.hash candHash w = (h, w) ∧ Invoker.hash candHash2 w = (h, w)) := by
  refine ⟨?_, ?_, ?_⟩
  · intro hinit
    cases hcl : c.im_class with
    | none => simp [initFresh, hcl] at hinit
    | some cls =>
      cases hip : ipc cls with
      | error e => simp [initFresh, hcl, hip, Except.map] at hinit
      | ok ip =>
        simp [initFresh, hcl, hip, Except.map] at hinit
        rw [← hinit]
  · intro hnone
    simp [Invoker.hash, hnone]
  · intro hsome
    constructor
    · simp [Invoker.hash, hsome]
    · simp [Invoker.hash, hsome]

/-- Witness for C6: the Invoker built for mEx has an absent cache; its
first hash call returns the method hash 2 and fills the cache; on the
filled Invoker, hashing under candHashEx and hashing under a method hash
that now answers 99 both return the cached 2 and change nothing. -/
theorem invoker_hash_memoized_witness :
    vEx._hash = none ∧
    Invoker.hash candHashEx vEx = (2, ⟨mEx, vEx.injection, some 2⟩) ∧
    Invoker.hash candHashEx ⟨mEx, vEx.injection, some 2⟩ =
      (2, ⟨mEx, vEx.injection, some 2⟩) ∧
    Invoker.hash (fun _ => (99 : Int)) ⟨mEx, vEx.injection, some 2⟩ =
      (2, ⟨mEx, vEx.injection, some 2⟩) := by
  have h1 := invoker_hash_memoized ipcEx 7 candHashEx (fun _ => (99 : Int))
    mEx vEx vEx 2
  have h2 := invoker_hash_memoized ipcEx 7 candHashEx (fun _ => (99 : Int))
    mEx vEx ⟨mEx, vEx.injection, some 2⟩ 2
  refine ⟨h1.1 rfl, ?_, ?_, ?_⟩
  · exact h1.2.1 rfl
  · exact (h2.2.2 rfl).1
  · exact (h2.2.2 rfl).2

/-- C9: hashing, equality and inequality of an Invoker never consult the
injection point: two Invokers agreeing on method and cache but carrying
different injection points produce the same hash value, the same updated
cache, and the same equality and inequality answers against every value in
both orientations.  All three operations are total functions into pure
values, so no resolution failure can arise from them. -/
theorem invoker_hash_eq_ignore_injection
    (candHash : Candidate κ ι φ α ρ ε → Int)
    (candEq candNe : Candidate κ ι φ α ρ ε → Candidate κ ι φ α ρ ε → Bool)
    (m : Candidate κ ι φ α ρ ε) (c : Option Int)
    (j1 j2 : InjectionPoint κ ι ε σ) (x : PyCand κ ι φ α ρ ε σ) :
    (Invoker.hash candHash ⟨m, j1, c⟩).1 = (Invoker.hash candHash ⟨m, j2, c⟩).1 ∧
    (Invoker.hash candHash ⟨m, j1, c⟩).2._hash =
      (Invoker.hash candHash ⟨m, j2, c⟩).2._hash ∧
    pyEq candEq (.inv ⟨m, j1, c⟩) x = pyEq candEq (.inv ⟨m, j2, c⟩) x ∧
    pyEq candEq x (.inv ⟨m, j1, c⟩) = pyEq candEq x (.inv ⟨m, j2, c⟩) ∧
    pyNe candNe (.inv ⟨m, j1, c⟩) x = pyNe candNe (.inv ⟨m, j2, c⟩) x ∧
    pyNe candNe x (.inv ⟨m, j1, c⟩) = pyNe candNe x (.inv ⟨m, j2, c⟩) := by
  refine ⟨?_, ?_, ?_, ?_, ?_, ?_⟩
  · cases c <;> simp [Invoker.hash]
  · cases c <;> simp [Invoker.hash]
  · cases x <;> simp [pyEq]
  · cases x <;> simp [pyEq]
  · cases x <;> simp [pyNe]
  · cases x <;> simp [pyNe]

/-- Unfolding of the factory test into the three probed conditions: the
declaring type is exposed, the function body is exposed, and the receiver
slot is exposed with an absent value. -/
theorem newCheck_iff (c : Candidate κ ι φ α ρ ε) :
    newCheck c = true ↔
      (c.im_class.isSome = true ∧ c.im_func.isSome = true ∧
        c.im_self = some none) := by
  rcases c with ⟨ic, is0, f0, b0⟩
  simp only [newCheck, im_selfIsNone, Bool.and_eq_true]
  cases is0 with
  | none => simp
  | some o =>
    cases o with
    | none => simp [And.comm]
    | some i => simp

/-- An unbound method candidate for the reapplication counterexamples. -/
def mExA : Candidate Nat Nat Nat Nat Nat Nat :=
  ⟨some 2, some none, some 6, fun i a _ => Except.ok (i + a.length)⟩

/-- The Invoker the factory builds for mExA under ipcEx. -/
def vExA : Invoker Nat Nat Nat Nat Nat Nat Nat :=
  ⟨mExA, ⟨2, fun s => (Except.ok s, s + 1)⟩, none⟩

/-- Another unbound method candidate, for a distinct counterexample. -/
def mExB : Candidate Nat Nat Nat Nat Nat Nat :=
  ⟨some 3, some none, some 4, fun i a _ => Except.ok (i * 10 + a.length)⟩

/-- The Invoker the factory builds for mExB under ipcEx. -/
def vExB : Invoker Nat Nat Nat Nat Nat Nat Nat :=
  ⟨mExB, ⟨3, fun s => (Except.ok s, s + 1)⟩, none⟩

/-- A third unbound method candidate, for the reapplication bug record. -/
def mExC : Candidate Nat Nat Nat Nat Nat Nat :=
  ⟨some 8, some none, some 9, fun i _ _ => Except.ok i⟩

/-- The Invoker the factory builds for mExC under ipcEx. -/
def vExC : Invoker Nat Nat Nat Nat Nat Nat Nat :=
  ⟨mExC, ⟨8, fun s => (Except.ok s, s + 1)⟩, none⟩

/-- Counterexample to C2 as stated: an Invoker instance is a candidate
that is not an unbound method reference (the allocation step classifies it
as such and returns it untouched), yet the factory call on it does not
return it — the construction protocol re-runs initialization on the
returned Invoker instance, whose missing im_class raises an attribute
error. -/
theorem invoker_factory_raises_on_invoker_input :
    pyNew (PyCand.inv vExA : PyCand Nat Nat Nat Nat Nat Nat Nat) =
      .untouched (.inv vExA) ∧
    invokerFactory ipcEx 7 (.inv vExA) = Except.error 7 ∧
    invokerFactory ipcEx 7 (.inv vExA) ≠ Except.ok (.inv vExA) := by
  refine ⟨rfl, rfl, fun h => ?_⟩
  rw [show invokerFactory ipcEx 7 (PyCand.inv vExA) = Except.error 7 from rfl] at h
  exact Except.noConfusion h

/-- C2 amended: for every candidate that is not an unbound method
reference and is not itself an Invoker instance, the factory returns the
candidate itself and raises no error. -/
theorem invoker_factory_passthrough_non_method
    (ipc : κ → Except ε (InjectionPoint κ ι ε σ)) (attrErr : ε)
    (c : Candidate κ ι φ α ρ ε) (h : newCheck c = false) :
    invokerFactory ipc attrErr (.cand c) = Except.ok (.cand c) := by
  simp [invokerFactory, pyNew, h]

/-- Witness for the amended C2 at a free function and at a bound method:
both come back unchanged with no error. -/
theorem invoker_factory_passthrough_non_method_witness :
    invokerFactory ipcEx 7 (.cand fEx) = Except.ok (.cand fEx) ∧
    invokerFactory ipcEx 7 (.cand bEx) = Except.ok (.cand bEx) := by
  exact ⟨invoker_factory_passthrough_non_method ipcEx 7 fEx (by decide),
    invoker_factory_passthrough_non_method ipcEx 7 bEx (by decide)⟩

/-- Counterexample to C3 as stated: the Invoker instance vExB fails the
attribute probes, so by the claim it should be returned unmodified, yet
the factory call on it raises instead of returning it. -/
theorem invoker_factory_invoker_input_not_returned :
    pyNew (PyCand.inv vExB : PyCand Nat Nat Nat Nat Nat Nat Nat) =
      .untouched (.inv vExB) ∧
    invokerFactory ipcEx 5 (.inv vExB) ≠ Except.ok (.inv vExB) := by
  refine ⟨rfl, fun h => ?_⟩
  rw [show invokerFactory ipcEx 5 (PyCand.inv vExB) = Except.error 5 from rfl] at h
  exact Except.noConfusion h

/-- C3 amended: the allocation step allocates a new Invoker exactly when
the candidate exposes a declaring type, a function body and an absent
receiver slot; a candidate failing the test is returned unmodified by the
factory provided it is not itself an Invoker instance, and an Invoker
candidate is returned untouched by the allocation step (the later
re-initialization, not the allocation, is what raises on it). -/
theorem invoker_new_allocates_iff_unbound
    (ipc : κ → Except ε (InjectionPoint κ ι ε σ)) (attrErr : ε)
    (c : Candidate κ ι φ α ρ ε) (v : Invoker κ ι φ α ρ ε σ) :
    (pyNew (PyCand.cand c : PyCand κ ι φ α ρ ε σ) = .fresh c ↔
      (c.im_class.isSome = true ∧ c.im_func.isSome = true ∧
        c.im_self = some none)) ∧
    (newCheck c = false →
      pyNew (PyCand.cand c : PyCand κ ι φ α ρ ε σ) = .untouched (.cand c) ∧
      invokerFactory ipc attrErr (.cand c) = Except.ok (.cand c)) ∧
    pyNew (PyCand.inv v : PyCand κ ι φ α ρ ε σ) = .untouched (.inv v) := by
  refine ⟨?_, ?_, rfl⟩
  · rw [← newCheck_iff]
    by_cases h : newCheck c = true
    · simp [pyNew, h]
    · simp [pyNew, h]
  · intro h
    exact ⟨by simp [pyNew, h], by simp [invokerFactory, pyNew, h]⟩

/-- Witness for the amended C3: the unbound method mEx is allocated a
fresh Invoker, while the bound method bEx fails the test and passes
through the factory unchanged. -/
theorem invoker_new_allocates_iff_unbound_witness :
    pyNew (PyCand.cand mEx : PyCand Nat Nat Nat Nat Nat Nat Nat) =
      .fresh mEx ∧
    invokerFactory ipcEx 3 (.cand bEx) = Except.ok (.cand bEx) := by
  have h1 := (invoker_new_allocates_iff_unbound ipcEx 3 mEx vEx).1.mpr
    (by decide)
  have h2 := ((invoker_new_allocates_iff_unbound ipcEx 3 bEx vEx).2.1
    (by decide)).2
  exact ⟨h1, h2⟩

/-- C10 record: the factory builds the Invoker vExC for the unbound method
mExC, but applying the factory to vExC itself raises the attribute error
instead of returning vExC untouched, because the construction protocol
re-runs initialization on the Invoker instance returned by the allocation
step. -/
theorem invoker_factory_reapply_raises :
    invokerFactory ipcEx 7 (.cand mExC) = Except.ok (.inv vExC) ∧
    invokerFactory ipcEx 7 (.inv vExC) = Except.error 7 := by
  exact ⟨rfl, rfl⟩
